import Mathlib

/-!
Verification of the pinamic-dns reconciliation core.

The definitions below are a shallow embedding of the Go source:
  - `scanRecords`, `getUpdatableARecord` embed the record scan of
    digitalOceanTransaction.getUpdatableARecord (digitalocean.go, lines 44-75);
  - `SetIP` embeds DigitalOceanIPSetter.SetIP (digitalocean.go, lines 128-148),
    with the effect of the provider write calls on the remote record set
    modelled from the spec of the DNS provider capability;
  - `CreateOrUpdateRecord` embeds the prototype pass of main.go (lines 140-195);
  - `Config.validate` and `NewConfigDecoded` embed cmd/config.go (lines 28-59).

Network values are passed explicitly: the textual IP stands for ip.String(),
and the outcome of each provider call is a field of a behaviour structure.
-/

namespace PinamicDNS

/-- godo.DomainRecord, restricted to the fields the program reads. -/
structure DomainRecord where
  id : Int
  type : String
  name : String
  data : String
  ttl : Int
deriving DecidableEq, Repr

/-- The zero value godo.DomainRecord\x7b\x7d returned on the error paths of
getUpdatableARecord. -/
def emptyRecord : DomainRecord :=
  { id := 0, type := "", name := "", data := "", ttl := 0 }

/-- const ARecordType = "A" (digitalocean.go, line 13). -/
def ARecordType : String := "A"

/-- godo.DomainRecordEditRequest, restricted to the fields the program sets. -/
structure DomainRecordEditRequest where
  type : String
  name : String
  data : String
  ttl : Int
deriving DecidableEq, Repr

/-- makeARecordEditRequest (digitalocean.go, lines 151-158); ipStr is ip.String(). -/
def makeARecordEditRequest (name : String) (ipStr : String) (ttl : Int) :
    DomainRecordEditRequest :=
  { type := ARecordType, name := name, data := ipStr, ttl := ttl }

/-- The error values getUpdatableARecord can return: the two sentinel errors of
digitalocean.go lines 15-18, and the xerrors-wrapped listing failure of lines
46-50 (transport error or non-success response). -/
inductive DoError where
  | listFailed
  | noUpdateNeeded
  | noRecordsFound
deriving DecidableEq, Repr

/-- The loop of getUpdatableARecord (digitalocean.go, lines 52-74): scan the
listed records, skipping records whose type is not "A" or whose name differs;
return the first remaining record whose data differs from proposedValue;
otherwise report noUpdateNeeded when a name match was seen, noRecordsFound
when none was. The Bool argument is the haveName flag, false at entry. -/
def scanRecords (name proposedValue : String) :
    List DomainRecord → Bool → DomainRecord × Option DoError
  | [], haveName =>
      if haveName then (emptyRecord, some DoError.noUpdateNeeded)
      else (emptyRecord, some DoError.noRecordsFound)
  | record :: rest, haveName =>
      if record.type ≠ ARecordType ∨ record.name ≠ name then
        scanRecords name proposedValue rest haveName
      else if record.data ≠ proposedValue then
        (record, none)
      else
        scanRecords name proposedValue rest true

/-- The remote state and call behaviour visible to one SetIP pass: the records
the provider holds for the domain, and whether each provider call fails with a
transport error or non-success response. -/
structure ProviderState where
  records : List DomainRecord
  listFails : Bool
  createFails : Bool
  updateFails : Bool

/-- getUpdatableARecord (digitalocean.go, lines 44-75): a failing listing call
yields the wrapped error; otherwise the scan loop runs over the listed records
with haveName initially false. The domain argument only routes the API call. -/
def getUpdatableARecord (st : ProviderState) (_domain name proposedValue : String) :
    DomainRecord × Option DoError :=
  if st.listFails then (emptyRecord, some DoError.listFailed)
  else scanRecords name proposedValue st.records false

/-- A network write call issued to the provider. -/
inductive WriteCall where
  | create (domain : String) (req : DomainRecordEditRequest)
  | update (domain : String) (recordId : Int) (req : DomainRecordEditRequest)
deriving DecidableEq, Repr

/-- The single error value SetIP returns ("Could not set IP: ..."). -/
inductive SetIPError where
  | couldNotSet
deriving DecidableEq, Repr

/-- Modelled from the spec: the create-record capability appends a record with
a provider-assigned identifier and the fields of the edit request. -/
def applyCreate (freshId : Int) (req : DomainRecordEditRequest)
    (records : List DomainRecord) : List DomainRecord :=
  records ++ [{ id := freshId, type := req.type, name := req.name,
                data := req.data, ttl := req.ttl }]

/-- Modelled from the spec: the edit capability, scoped to an identifier,
replaces the fields of the record carrying that identifier. -/
def applyUpdate (targetId : Int) (req : DomainRecordEditRequest)
    (records : List DomainRecord) : List DomainRecord :=
  records.map fun r =>
    if r.id = targetId then
      { id := r.id, type := req.type, name := req.name,
        data := req.data, ttl := req.ttl }
    else r

/-- Modelled from the spec: an edit call addressed to an identifier that no
remote record carries fails with a not-found response. -/
def updateTargetExists (records : List DomainRecord) (targetId : Int) : Bool :=
  records.any fun r => r.id == targetId

/-- The observable result of one SetIP pass: the returned error, the write
calls issued, and the remote record set afterwards. -/
structure SetIPResult where
  err : Option SetIPError
  writes : List WriteCall
  finalRecords : List DomainRecord
deriving Repr

/-- SetIP (digitalocean.go, lines 128-148). The err of getUpdatableARecord is
compared only against the two sentinel errors, so the wrapped listing error
reaches the final branch and updateRecord runs with the zero-value record.
A failed write call leaves the remote records unchanged (modelled from the
spec: no partial state is assumed changed on a failing call). -/
def SetIP (st : ProviderState) (freshId : Int) (domain name ipStr : String)
    (recordTTL : Int) : SetIPResult :=
  let editRequest := makeARecordEditRequest name ipStr recordTTL
  let scan := getUpdatableARecord st domain name ipStr
  let existingRecord := scan.1
  let err := scan.2
  if err = some DoError.noUpdateNeeded then
    { err := none, writes := [], finalRecords := st.records }
  else if err = some DoError.noRecordsFound then
    if st.createFails then
      { err := some SetIPError.couldNotSet,
        writes := [WriteCall.create domain editRequest],
        finalRecords := st.records }
    else
      { err := none,
        writes := [WriteCall.create domain editRequest],
        finalRecords := applyCreate freshId editRequest st.records }
  else
    if st.updateFails ∨ updateTargetExists st.records existingRecord.id = false then
      { err := some SetIPError.couldNotSet,
        writes := [WriteCall.update domain existingRecord.id editRequest],
        finalRecords := st.records }
    else
      { err := none,
        writes := [WriteCall.update domain existingRecord.id editRequest],
        finalRecords := applyUpdate existingRecord.id editRequest st.records }

/-- A record is relevant to the reconciliation decision when it is an A record
carrying the configured name (digitalocean.go, line 56). -/
def matchesTarget (name : String) (r : DomainRecord) : Bool :=
  r.type == ARecordType && r.name == name

/-- The number of listed A records carrying the configured name. -/
def countNamed (records : List DomainRecord) (name : String) : Nat :=
  (records.filter (matchesTarget name)).length

/-- The number of listed A records carrying the configured name and the
desired data. -/
def countDesired (records : List DomainRecord) (name pv : String) : Nat :=
  (records.filter fun r => matchesTarget name r && r.data == pv).length

/-- DNSConfig of the main.go prototype: the cached record identifier is a
pointer, nil when unset. -/
structure PrototypeDNSConfig where
  domain : String
  recordId : Option Int
  name : String
  ttl : Int

/-- The provider behaviour one prototype pass observes: the outcome of the
single-record fetch (the record, the response status code, and whether the
call returned an error), and whether the create call, the persisting of the
created identifier to the config file, and the edit call fail. -/
structure PrototypeProvider where
  fetchedRecord : DomainRecord
  fetchStatus : Int
  fetchErrored : Bool
  createFails : Bool
  configWriteFails : Bool
  updateFails : Bool

/-- Which message CreateOrUpdateRecord prints on a run that returns no error
(main.go, lines 158-191). -/
inductive PassMessage where
  | setRecord
  | updatedRecord
  | alreadyPoints
  | unknownStatus
deriving DecidableEq, Repr

/-- A provider call issued by the prototype pass, in order. -/
inductive MainAction where
  | fetchCall
  | createCall
  | updateCall
deriving DecidableEq, Repr

/-- CreateRecord (main.go, lines 116-127): the provider create call, followed
on success by persisting the created identifier to the config file; a
persistence failure is returned as the call error even though the record was
created. Result: some () when the call returns an error. -/
def CreateRecordCall (p : PrototypeProvider) : Option Unit :=
  if p.createFails then some ()
  else if p.configWriteFails then some ()
  else none

/-- CreateOrUpdateRecord (main.go, lines 140-195). The ip argument is the
address getIP discovered; a discovery failure aborts before any provider call
and is outside this model. With a cached identifier the pass fetches that
single record and checks res.StatusCode == 404 before inspecting err, so a
not-found response always falls through to CreateRecord. -/
def CreateOrUpdateRecord (cfg : PrototypeDNSConfig) (p : PrototypeProvider)
    (ip : String) : Except Unit PassMessage × List MainAction :=
  match cfg.recordId with
  | none =>
      match CreateRecordCall p with
      | some _ => (Except.error (), [MainAction.createCall])
      | none => (Except.ok PassMessage.setRecord, [MainAction.createCall])
  | some _ =>
      if p.fetchStatus = 404 then
        match CreateRecordCall p with
        | some _ => (Except.error (), [MainAction.fetchCall, MainAction.createCall])
        | none => (Except.ok PassMessage.setRecord, [MainAction.fetchCall, MainAction.createCall])
      else if p.fetchErrored then
        (Except.error (), [MainAction.fetchCall])
      else if p.fetchedRecord.data ≠ ip then
        if p.updateFails then
          (Except.error (), [MainAction.fetchCall, MainAction.updateCall])
        else
          (Except.ok PassMessage.updatedRecord, [MainAction.fetchCall, MainAction.updateCall])
      else if p.fetchStatus = 200 then
        (Except.ok PassMessage.alreadyPoints, [MainAction.fetchCall])
      else
        (Except.ok PassMessage.unknownStatus, [MainAction.fetchCall])

/-- The DNS section of the rewritten configuration (cmd/config.go, lines 21-25). -/
structure CmdDNSConfig where
  domain : String
  name : String
  ttl : Int

/-- The rewritten configuration (cmd/config.go, lines 15-18). -/
structure CmdConfig where
  accessToken : String
  dnsConfig : CmdDNSConfig

/-- Config.validate (cmd/config.go, lines 47-59). -/
def CmdConfig.validate (c : CmdConfig) : Option String :=
  if c.accessToken = "" then some "access token must be specified in config"
  else if c.dnsConfig.domain = "" then some "domain must be specified in config"
  else if c.dnsConfig.name = "" then some "name must be specified in config"
  else if c.dnsConfig.ttl = 0 then some "ttl must be specified in config"
  else none

/-- NewConfig (cmd/config.go, lines 28-44) after a successful JSON decode: the
decoded config is returned together with the result of validate. File-open
and decode failures occur before a decoded configuration exists and are
outside this model. -/
def NewConfigDecoded (c : CmdConfig) : CmdConfig × Option String :=
  (c, c.validate)

theorem matchesTarget_eq_true_iff (name : String) (r : DomainRecord) :
    matchesTarget name r = true ↔ (r.type = ARecordType ∧ r.name = name) := by
  simp [matchesTarget]

theorem matchesTarget_eq_false_iff (name : String) (r : DomainRecord) :
    matchesTarget name r = false ↔ (r.type ≠ ARecordType ∨ r.name ≠ name) := by
  simp [matchesTarget]
  tauto

theorem scanRecords_cons_skip (name pv : String) (r : DomainRecord)
    (l : List DomainRecord) (b : Bool) (h : matchesTarget name r = false) :
    scanRecords name pv (r :: l) b = scanRecords name pv l b := by
  rw [scanRecords, if_pos ((matchesTarget_eq_false_iff name r).mp h)]

theorem scanRecords_cons_found (name pv : String) (r : DomainRecord)
    (l : List DomainRecord) (b : Bool) (h : matchesTarget name r = true)
    (hd : r.data ≠ pv) :
    scanRecords name pv (r :: l) b = (r, none) := by
  obtain ⟨h1, h2⟩ := (matchesTarget_eq_true_iff name r).mp h
  rw [scanRecords, if_neg (by push_neg; exact ⟨h1, h2⟩), if_pos hd]

theorem scanRecords_cons_current (name pv : String) (r : DomainRecord)
    (l : List DomainRecord) (b : Bool) (h : matchesTarget name r = true)
    (hd : r.data = pv) :
    scanRecords name pv (r :: l) b = scanRecords name pv l true := by
  obtain ⟨h1, h2⟩ := (matchesTarget_eq_true_iff name r).mp h
  rw [scanRecords, if_neg (by push_neg; exact ⟨h1, h2⟩), if_neg (by simpa using hd)]

theorem scanRecords_eq_scanRecords_filter (name pv : String)
    (l : List DomainRecord) (b : Bool) :
    scanRecords name pv l b = scanRecords name pv (l.filter (matchesTarget name)) b := by
  induction l generalizing b with
  | nil => rfl
  | cons r rest ih =>
    by_cases h : matchesTarget name r = true
    · rw [List.filter_cons_of_pos h]
      by_cases hd : r.data = pv
      · rw [scanRecords_cons_current name pv r rest b h hd,
          scanRecords_cons_current name pv r (rest.filter (matchesTarget name)) b h hd,
          ih]
      · rw [scanRecords_cons_found name pv r rest b h hd,
          scanRecords_cons_found name pv r (rest.filter (matchesTarget name)) b h hd]
    · rw [Bool.not_eq_true] at h
      rw [List.filter_cons_of_neg (by simp [h]),
        scanRecords_cons_skip name pv r rest b h, ih]

theorem scanRecords_found_spec (name pv : String) (l : List DomainRecord) (b : Bool)
    (r : DomainRecord) (h : scanRecords name pv l b = (r, none)) :
    r ∈ l ∧ matchesTarget name r = true ∧ r.data ≠ pv := by
  induction l generalizing b with
  | nil =>
    rw [scanRecords] at h
    split at h <;> simp at h
  | cons s rest ih =>
    by_cases hm : matchesTarget name s = true
    · by_cases hd : s.data = pv
      · rw [scanRecords_cons_current name pv s rest b hm hd] at h
        obtain ⟨h1, h2, h3⟩ := ih true h
        exact ⟨List.mem_cons_of_mem s h1, h2, h3⟩
      · rw [scanRecords_cons_found name pv s rest b hm hd] at h
        have hs : s = r := congrArg Prod.fst h
        subst hs
        exact ⟨List.mem_cons_self s rest, hm, hd⟩
    · rw [Bool.not_eq_true] at hm
      rw [scanRecords_cons_skip name pv s rest b hm] at h
      obtain ⟨h1, h2, h3⟩ := ih b h
      exact ⟨List.mem_cons_of_mem s h1, h2, h3⟩

theorem scanRecords_snd_ne_listFailed (name pv : String) (l : List DomainRecord)
    (b : Bool) : (scanRecords name pv l b).2 ≠ some DoError.listFailed := by
  induction l generalizing b with
  | nil =>
    rw [scanRecords]
    split <;> simp
  | cons s rest ih =>
    by_cases hm : matchesTarget name s = true
    · by_cases hd : s.data = pv
      · rw [scanRecords_cons_current name pv s rest b hm hd]; exact ih true
      · rw [scanRecords_cons_found name pv s rest b hm hd]; simp
    · rw [Bool.not_eq_true] at hm
      rw [scanRecords_cons_skip name pv s rest b hm]; exact ih b

theorem scanRecords_true_snd_ne_noRecordsFound (name pv : String)
    (l : List DomainRecord) :
    (scanRecords name pv l true).2 ≠ some DoError.noRecordsFound := by
  induction l with
  | nil => rw [scanRecords]; simp
  | cons s rest ih =>
    by_cases hm : matchesTarget name s = true
    · by_cases hd : s.data = pv
      · rw [scanRecords_cons_current name pv s rest true hm hd]; exact ih
      · rw [scanRecords_cons_found name pv s rest true hm hd]; simp
    · rw [Bool.not_eq_true] at hm
      rw [scanRecords_cons_skip name pv s rest true hm]; exact ih

theorem scanRecords_noRecordsFound_iff (name pv : String) (l : List DomainRecord) :
    (scanRecords name pv l false).2 = some DoError.noRecordsFound ↔
      ∀ r ∈ l, matchesTarget name r = false := by
  induction l with
  | nil => rw [scanRecords]; simp
  | cons s rest ih =>
    by_cases hm : matchesTarget name s = true
    · by_cases hd : s.data = pv
      · rw [scanRecords_cons_current name pv s rest false hm hd]
        simp only [List.mem_cons]
        constructor
        · intro h
          exact absurd h (scanRecords_true_snd_ne_noRecordsFound name pv rest)
        · intro h
          exact absurd hm (by simp [h s (Or.inl rfl)])
      · rw [scanRecords_cons_found name pv s rest false hm hd]
        simp only [List.mem_cons]
        constructor
        · intro h; exact absurd h (by simp)
        · intro h
          exact absurd hm (by simp [h s (Or.inl rfl)])
    · rw [Bool.not_eq_true] at hm
      rw [scanRecords_cons_skip name pv s rest false hm, ih]
      constructor
      · intro h r hr
        rcases List.mem_cons.mp hr with rfl | hr
        · exact hm
        · exact h r hr
      · intro h r hr
        exact h r (List.mem_cons_of_mem s hr)

theorem scanRecords_true_all_current (name pv : String) (l : List DomainRecord)
    (hall : ∀ r ∈ l, matchesTarget name r = true → r.data = pv) :
    scanRecords name pv l true = (emptyRecord, some DoError.noUpdateNeeded) := by
  induction l with
  | nil => rfl
  | cons s rest ih =>
    have hrest : ∀ r ∈ rest, matchesTarget name r = true → r.data = pv :=
      fun r hr => hall r (List.mem_cons_of_mem s hr)
    by_cases hm : matchesTarget name s = true
    · rw [scanRecords_cons_current name pv s rest true hm
        (hall s (List.mem_cons_self s rest) hm)]
      exact ih hrest
    · rw [Bool.not_eq_true] at hm
      rw [scanRecords_cons_skip name pv s rest true hm]
      exact ih hrest

theorem scanRecords_false_all_current (name pv : String) (l : List DomainRecord)
    (hex : ∃ r ∈ l, matchesTarget name r = true)
    (hall : ∀ r ∈ l, matchesTarget name r = true → r.data = pv) :
    scanRecords name pv l false = (emptyRecord, some DoError.noUpdateNeeded) := by
  induction l with
  | nil => exact absurd hex (by simp)
  | cons s rest ih =>
    have hrest : ∀ r ∈ rest, matchesTarget name r = true → r.data = pv :=
      fun r hr => hall r (List.mem_cons_of_mem s hr)
    by_cases hm : matchesTarget name s = true
    · rw [scanRecords_cons_current name pv s rest false hm
        (hall s (List.mem_cons_self s rest) hm)]
      exact scanRecords_true_all_current name pv rest hrest
    · rw [Bool.not_eq_true] at hm
      rw [scanRecords_cons_skip name pv s rest false hm]
      refine ih ?_ hrest
      obtain ⟨r, hr, hrm⟩ := hex
      rcases List.mem_cons.mp hr with rfl | hr
      · exact absurd hrm (by simp [hm])
      · exact ⟨r, hr, hrm⟩

theorem scanRecords_append_first_divergent (name pv : String)
    (l1 l2 : List DomainRecord) (r : DomainRecord) (b : Bool)
    (h1 : ∀ s ∈ l1, matchesTarget name s = true → s.data = pv)
    (hr : matchesTarget name r = true) (hd : r.data ≠ pv) :
    scanRecords name pv (l1 ++ r :: l2) b = (r, none) := by
  induction l1 generalizing b with
  | nil => exact scanRecords_cons_found name pv r l2 b hr hd
  | cons s rest ih =>
    have hrest : ∀ x ∈ rest, matchesTarget name x = true → x.data = pv :=
      fun x hx => h1 x (List.mem_cons_of_mem s hx)
    by_cases hm : matchesTarget name s = true
    · rw [List.cons_append,
        scanRecords_cons_current name pv s (rest ++ r :: l2) b hm
          (h1 s (List.mem_cons_self s rest) hm)]
      exact ih true hrest
    · rw [Bool.not_eq_true] at hm
      rw [List.cons_append, scanRecords_cons_skip name pv s (rest ++ r :: l2) b hm]
      exact ih b hrest

theorem getUpdatableARecord_eq_scan (st : ProviderState) (domain name pv : String)
    (hl : st.listFails = false) :
    getUpdatableARecord st domain name pv = scanRecords name pv st.records false := by
  simp [getUpdatableARecord, hl]

theorem SetIP_of_noUpdateNeeded (st : ProviderState) (freshId : Int)
    (domain name ipStr : String) (recordTTL : Int)
    (h : (getUpdatableARecord st domain name ipStr).2 = some DoError.noUpdateNeeded) :
    SetIP st freshId domain name ipStr recordTTL
      = { err := none, writes := [], finalRecords := st.records } := by
  simp [SetIP, h]

theorem SetIP_of_noRecordsFound (st : ProviderState) (freshId : Int)
    (domain name ipStr : String) (recordTTL : Int)
    (h : (getUpdatableARecord st domain name ipStr).2 = some DoError.noRecordsFound) :
    SetIP st freshId domain name ipStr recordTTL
      = (if st.createFails then
          { err := some SetIPError.couldNotSet,
            writes := [WriteCall.create domain (makeARecordEditRequest name ipStr recordTTL)],
            finalRecords := st.records }
        else
          { err := none,
            writes := [WriteCall.create domain (makeARecordEditRequest name ipStr recordTTL)],
            finalRecords := applyCreate freshId (makeARecordEditRequest name ipStr recordTTL) st.records }) := by
  simp [SetIP, h]

theorem SetIP_of_update_path (st : ProviderState) (freshId : Int)
    (domain name ipStr : String) (recordTTL : Int) (r : DomainRecord)
    (e : Option DoError)
    (h : getUpdatableARecord st domain name ipStr = (r, e))
    (he1 : e ≠ some DoError.noUpdateNeeded)
    (he2 : e ≠ some DoError.noRecordsFound) :
    SetIP st freshId domain name ipStr recordTTL
      = (if st.updateFails ∨ updateTargetExists st.records r.id = false then
          { err := some SetIPError.couldNotSet,
            writes := [WriteCall.update domain r.id (makeARecordEditRequest name ipStr recordTTL)],
            finalRecords := st.records }
        else
          { err := none,
            writes := [WriteCall.update domain r.id (makeARecordEditRequest name ipStr recordTTL)],
            finalRecords := applyUpdate r.id (makeARecordEditRequest name ipStr recordTTL) st.records }) := by
  simp [SetIP, h, he1, he2]

theorem length_filter_le_of_imp {α : Type} {l : List α} {p q : α → Bool}
    (h : ∀ x ∈ l, p x = true → q x = true) :
    (l.filter p).length ≤ (l.filter q).length := by
  induction l with
  | nil => simp
  | cons a t ih =>
    have ht : ∀ x ∈ t, p x = true → q x = true :=
      fun x hx => h x (List.mem_cons_of_mem a hx)
    by_cases hp : p a = true
    · rw [List.filter_cons_of_pos hp,
        List.filter_cons_of_pos (h a (List.mem_cons_self a t) hp)]
      simpa using ih ht
    · rw [Bool.not_eq_true] at hp
      rw [List.filter_cons_of_neg (by simp [hp])]
      by_cases hq : q a = true
      · rw [List.filter_cons_of_pos hq]
        exact le_trans (ih ht) (by simp)
      · rw [Bool.not_eq_true] at hq
        rw [List.filter_cons_of_neg (by simp [hq])]
        exact ih ht

theorem countDesired_le_countNamed (records : List DomainRecord) (name pv : String) :
    countDesired records name pv ≤ countNamed records name :=
  length_filter_le_of_imp (fun x _ hx => by
    simp only [Bool.and_eq_true] at hx
    exact hx.1)

theorem countDesired_applyUpdate_le (records : List DomainRecord)
    (name pv : String) (recordTTL : Int) (r : DomainRecord)
    (hr : r ∈ records) (hm : matchesTarget name r = true)
    (hids : (records.map fun x => x.id).Nodup) :
    countDesired (applyUpdate r.id (makeARecordEditRequest name pv recordTTL) records) name pv
      ≤ countNamed records name := by
  unfold countDesired applyUpdate
  rw [List.filter_map, List.length_map]
  refine length_filter_le_of_imp ?_
  intro x hx hpx
  by_cases hid : x.id = r.id
  · have hxr : x = r :=
      List.inj_on_of_nodup_map hids hx hr (by simpa using hid)
    rw [hxr]
    exact hm
  · simp only [Function.comp_apply, if_neg hid] at hpx
    simp only [Bool.and_eq_true] at hpx
    exact hpx.1

/-- C3: for every record sequence containing an A record with the given name
whose data differs from proposedValue, the scan of getUpdatableARecord returns
the first such divergent record in listing order; the trailing records l2 are
arbitrary and absent from the result, capturing the short-circuit return. -/
theorem resolver_returns_first_divergent (name pv : String)
    (l1 l2 : List DomainRecord) (r : DomainRecord)
    (h1 : ∀ s ∈ l1, matchesTarget name s = true → s.data = pv)
    (hr : matchesTarget name r = true) (hd : r.data ≠ pv) :
    scanRecords name pv (l1 ++ r :: l2) false = (r, none) :=
  scanRecords_append_first_divergent name pv l1 l2 r false h1 hr hd

theorem resolver_returns_first_divergent_witness :
    scanRecords "home" "203.0.113.5"
        ([{ id := 1, type := "A", name := "home", data := "203.0.113.5", ttl := 100 }] ++
          { id := 2, type := "A", name := "home", data := "198.51.100.1", ttl := 100 } ::
          [{ id := 3, type := "A", name := "home", data := "198.51.100.9", ttl := 100 }]) false
      = ({ id := 2, type := "A", name := "home", data := "198.51.100.1", ttl := 100 }, none) :=
  resolver_returns_first_divergent "home" "203.0.113.5"
    [{ id := 1, type := "A", name := "home", data := "203.0.113.5", ttl := 100 }]
    [{ id := 3, type := "A", name := "home", data := "198.51.100.9", ttl := 100 }]
    { id := 2, type := "A", name := "home", data := "198.51.100.1", ttl := 100 }
    (by decide) (by decide) (by decide)

/-- C4: when the listing succeeds, at least one A record carries the configured
name, and every such record already carries the proposed value, the scan
reports noUpdateNeeded and SetIP returns success with no write call and the
remote records untouched. -/
theorem resolver_alreadyCurrent_skips_write (st : ProviderState) (freshId : Int)
    (domain name ipStr : String) (recordTTL : Int)
    (hl : st.listFails = false)
    (hex : ∃ r ∈ st.records, matchesTarget name r = true)
    (hall : ∀ r ∈ st.records, matchesTarget name r = true → r.data = ipStr) :
    (getUpdatableARecord st domain name ipStr).2 = some DoError.noUpdateNeeded
      ∧ SetIP st freshId domain name ipStr recordTTL
          = { err := none, writes := [], finalRecords := st.records } := by
  have h2 : (getUpdatableARecord st domain name ipStr).2 = some DoError.noUpdateNeeded := by
    rw [getUpdatableARecord_eq_scan st domain name ipStr hl,
      scanRecords_false_all_current name ipStr st.records hex hall]
  exact ⟨h2, SetIP_of_noUpdateNeeded st freshId domain name ipStr recordTTL h2⟩

theorem resolver_alreadyCurrent_skips_write_witness :
    (getUpdatableARecord
        { records := [{ id := 1, type := "A", name := "home", data := "203.0.113.5", ttl := 100 }],
          listFails := false, createFails := false, updateFails := false }
        "example.com" "home" "203.0.113.5").2 = some DoError.noUpdateNeeded
      ∧ SetIP
          { records := [{ id := 1, type := "A", name := "home", data := "203.0.113.5", ttl := 100 }],
            listFails := false, createFails := false, updateFails := false }
          9 "example.com" "home" "203.0.113.5" 300
        = { err := none, writes := [],
            finalRecords := [{ id := 1, type := "A", name := "home", data := "203.0.113.5", ttl := 100 }] } :=
  resolver_alreadyCurrent_skips_write
    { records := [{ id := 1, type := "A", name := "home", data := "203.0.113.5", ttl := 100 }],
      listFails := false, createFails := false, updateFails := false }
    9 "example.com" "home" "203.0.113.5" 300 rfl (by decide) (by decide)

/-- C5: when the listing succeeds and no listed record is an A record with the
configured name (in particular for the empty listing), the scan reports
noRecordsFound and SetIP issues the creation call for a new record. -/
theorem resolver_needsCreate_issues_create (st : ProviderState) (freshId : Int)
    (domain name ipStr : String) (recordTTL : Int)
    (hl : st.listFails = false)
    (hnone : ∀ r ∈ st.records, matchesTarget name r = false) :
    (getUpdatableARecord st domain name ipStr).2 = some DoError.noRecordsFound
      ∧ (SetIP st freshId domain name ipStr recordTTL).writes
          = [WriteCall.create domain (makeARecordEditRequest name ipStr recordTTL)] := by
  have h2 : (getUpdatableARecord st domain name ipStr).2 = some DoError.noRecordsFound := by
    rw [getUpdatableARecord_eq_scan st domain name ipStr hl]
    exact (scanRecords_noRecordsFound_iff name ipStr st.records).mpr hnone
  refine ⟨h2, ?_⟩
  rw [SetIP_of_noRecordsFound st freshId domain name ipStr recordTTL h2]
  split <;> rfl

theorem resolver_needsCreate_issues_create_witness :
    (getUpdatableARecord
        { records := [], listFails := false, createFails := false, updateFails := false }
        "example.com" "home" "203.0.113.5").2 = some DoError.noRecordsFound
      ∧ (SetIP { records := [], listFails := false, createFails := false, updateFails := false }
          9 "example.com" "home" "203.0.113.5" 300).writes
        = [WriteCall.create "example.com" (makeARecordEditRequest "home" "203.0.113.5" 300)] :=
  resolver_needsCreate_issues_create
    { records := [], listFails := false, createFails := false, updateFails := false }
    9 "example.com" "home" "203.0.113.5" 300 rfl (by decide)

/-- C6: the decision of the scan depends only on the subsequence of A records
carrying the configured name, so permuting or removing other records (which
leaves that filtered subsequence unchanged) leaves the outcome unchanged; and
any record the scan targets is an A record with the configured name. -/
theorem resolver_ignores_foreign_records (name pv : String) :
    (∀ (l1 l2 : List DomainRecord) (b : Bool),
        l1.filter (matchesTarget name) = l2.filter (matchesTarget name) →
        scanRecords name pv l1 b = scanRecords name pv l2 b)
    ∧ (∀ (l : List DomainRecord) (b : Bool) (r : DomainRecord),
        scanRecords name pv l b = (r, none) → matchesTarget name r = true) := by
  constructor
  · intro l1 l2 b hf
    rw [scanRecords_eq_scanRecords_filter name pv l1 b, hf,
      ← scanRecords_eq_scanRecords_filter name pv l2 b]
  · intro l b r h
    exact (scanRecords_found_spec name pv l b r h).2.1

theorem resolver_ignores_foreign_records_witness :
    scanRecords "home" "198.51.100.1"
        [{ id := 1, type := "A", name := "home", data := "198.51.100.1", ttl := 100 },
         { id := 2, type := "MX", name := "home", data := "mail.example.com", ttl := 100 }] false
      = scanRecords "home" "198.51.100.1"
        [{ id := 1, type := "A", name := "home", data := "198.51.100.1", ttl := 100 }] false :=
  (resolver_ignores_foreign_records "home" "198.51.100.1").1
    [{ id := 1, type := "A", name := "home", data := "198.51.100.1", ttl := 100 },
     { id := 2, type := "MX", name := "home", data := "mail.example.com", ttl := 100 }]
    [{ id := 1, type := "A", name := "home", data := "198.51.100.1", ttl := 100 }]
    false (by decide)

/-- C7: every SetIP pass issues at most one write call; when the scan reports
noUpdateNeeded (the AlreadyCurrent outcome) it issues none; and no pass issues
both a create call and an update call. -/
theorem setIP_write_discipline (st : ProviderState) (freshId : Int)
    (domain name ipStr : String) (recordTTL : Int) :
    (SetIP st freshId domain name ipStr recordTTL).writes.length ≤ 1
      ∧ ((getUpdatableARecord st domain name ipStr).2 = some DoError.noUpdateNeeded →
          (SetIP st freshId domain name ipStr recordTTL).writes = [])
      ∧ ¬((∃ d req, WriteCall.create d req ∈ (SetIP st freshId domain name ipStr recordTTL).writes)
          ∧ (∃ d i req, WriteCall.update d i req ∈ (SetIP st freshId domain name ipStr recordTTL).writes)) := by
  rcases hscan : getUpdatableARecord st domain name ipStr with ⟨rec, e⟩
  have hsnd : (getUpdatableARecord st domain name ipStr).2 = e := by rw [hscan]
  match e, hscan with
  | some DoError.noUpdateNeeded, hscan =>
    rw [SetIP_of_noUpdateNeeded st freshId domain name ipStr recordTTL hsnd]
    refine ⟨by simp, fun _ => rfl, ?_⟩
    rintro ⟨⟨d, req, hmem⟩, -⟩
    simp at hmem
  | some DoError.noRecordsFound, hscan =>
    rw [SetIP_of_noRecordsFound st freshId domain name ipStr recordTTL hsnd]
    refine ⟨?_, ?_, ?_⟩
    · split <;> simp
    · intro hcontra
      simp at hcontra
    · rintro ⟨-, ⟨d, i, req, hmem⟩⟩
      split at hmem <;> simp at hmem
  | none, hscan =>
    rw [SetIP_of_update_path st freshId domain name ipStr recordTTL rec none hscan
      (by simp) (by simp)]
    refine ⟨?_, ?_, ?_⟩
    · split <;> simp
    · intro hcontra
      simp at hcontra
    · rintro ⟨⟨d, req, hmem⟩, -⟩
      split at hmem <;> simp at hmem
  | some DoError.listFailed, hscan =>
    rw [SetIP_of_update_path st freshId domain name ipStr recordTTL rec
      (some DoError.listFailed) hscan (by simp) (by simp)]
    refine ⟨?_, ?_, ?_⟩
    · split <;> simp
    · intro hcontra
      simp at hcontra
    · rintro ⟨⟨d, req, hmem⟩, -⟩
      split at hmem <;> simp at hmem

theorem setIP_write_discipline_witness :
    (SetIP { records := [], listFails := false, createFails := false, updateFails := false }
        9 "example.com" "home" "203.0.113.5" 300).writes.length ≤ 1 ∧
    (SetIP
        { records := [{ id := 1, type := "A", name := "home", data := "203.0.113.5", ttl := 100 }],
          listFails := false, createFails := false, updateFails := false }
        9 "example.com" "home" "203.0.113.5" 300).writes = [] :=
  ⟨(setIP_write_discipline
      { records := [], listFails := false, createFails := false, updateFails := false }
      9 "example.com" "home" "203.0.113.5" 300).1,
    (setIP_write_discipline
      { records := [{ id := 1, type := "A", name := "home", data := "203.0.113.5", ttl := 100 }],
        listFails := false, createFails := false, updateFails := false }
      9 "example.com" "home" "203.0.113.5" 300).2.1 (by decide)⟩

/-- C1 (code bug): when the listing call fails, SetIP does not abort without a
write: the wrapped listing error matches neither sentinel comparison, so the
final branch runs updateRecord with the zero-value record, issuing an edit
write call scoped to identifier 0. -/
theorem setIP_listing_failure_issues_edit_call :
    (SetIP { records := [], listFails := true, createFails := false, updateFails := false }
        7 "example.com" "home" "203.0.113.5" 300).writes
      = [WriteCall.update "example.com" 0 (makeARecordEditRequest "home" "203.0.113.5" 300)] := by
  rfl

/-- C2 (counterexample): with two same-named A records, one of which already
carries the proposed value, a successful pass updates the other to that value
as well, leaving two A records with the configured name and desired data. -/
theorem setIP_duplicate_desired_counterexample :
    (SetIP
        { records := [{ id := 1, type := "A", name := "home", data := "198.51.100.1", ttl := 100 },
                      { id := 2, type := "A", name := "home", data := "203.0.113.5", ttl := 100 }],
          listFails := false, createFails := false, updateFails := false }
        9 "example.com" "home" "203.0.113.5" 300).err = none
      ∧ countDesired
          [{ id := 1, type := "A", name := "home", data := "198.51.100.1", ttl := 100 },
           { id := 2, type := "A", name := "home", data := "203.0.113.5", ttl := 100 }]
          "home" "203.0.113.5" = 1
      ∧ countDesired
          (SetIP
            { records := [{ id := 1, type := "A", name := "home", data := "198.51.100.1", ttl := 100 },
                          { id := 2, type := "A", name := "home", data := "203.0.113.5", ttl := 100 }],
              listFails := false, createFails := false, updateFails := false }
            9 "example.com" "home" "203.0.113.5" 300).finalRecords "home" "203.0.113.5" = 2 := by
  refine ⟨rfl, rfl, rfl⟩

/-- C2 (amended): when the listing succeeds, the provider-assigned identifiers
are distinct, and at most one listed A record carries the configured name, a
successful pass leaves at most one A record with that name and the desired
data; and whenever any listed A record carries the name, the pass issues no
create call. -/
theorem setIP_unique_named_record_invariant (st : ProviderState) (freshId : Int)
    (domain name ipStr : String) (recordTTL : Int)
    (hl : st.listFails = false)
    (hids : (st.records.map fun r => r.id).Nodup)
    (hcount : countNamed st.records name ≤ 1)
    (hok : (SetIP st freshId domain name ipStr recordTTL).err = none) :
    countDesired (SetIP st freshId domain name ipStr recordTTL).finalRecords name ipStr ≤ 1
      ∧ (0 < countNamed st.records name →
          ∀ d req, WriteCall.create d req ∉ (SetIP st freshId domain name ipStr recordTTL).writes) := by
  rcases hscan : getUpdatableARecord st domain name ipStr with ⟨rec, e⟩
  match e, hscan with
  | none, hscan =>
    obtain ⟨hmem, hmatch, -⟩ := scanRecords_found_spec name ipStr st.records false rec
      (by rw [← getUpdatableARecord_eq_scan st domain name ipStr hl]; exact hscan)
    rw [SetIP_of_update_path st freshId domain name ipStr recordTTL rec none hscan
      (by simp) (by simp)] at hok ⊢
    by_cases hcond : st.updateFails = true ∨ updateTargetExists st.records rec.id = false
    · rw [if_pos hcond] at hok
      simp at hok
    · rw [if_neg hcond] at hok ⊢
      refine ⟨le_trans (countDesired_applyUpdate_le st.records name ipStr recordTTL rec
        hmem hmatch hids) hcount, ?_⟩
      intro _ d req hmemw
      simp at hmemw
  | some DoError.listFailed, hscan =>
    have hcontra : (scanRecords name ipStr st.records false).2 = some DoError.listFailed := by
      rw [← getUpdatableARecord_eq_scan st domain name ipStr hl, hscan]
    exact absurd hcontra (scanRecords_snd_ne_listFailed name ipStr st.records false)
  | some DoError.noUpdateNeeded, hscan =>
    rw [SetIP_of_noUpdateNeeded st freshId domain name ipStr recordTTL (by rw [hscan])]
    refine ⟨le_trans (countDesired_le_countNamed st.records name ipStr) hcount, ?_⟩
    intro _ d req hmemw
    simp at hmemw
  | some DoError.noRecordsFound, hscan =>
    have hnone : ∀ r ∈ st.records, matchesTarget name r = false :=
      (scanRecords_noRecordsFound_iff name ipStr st.records).mp
        (by rw [← getUpdatableARecord_eq_scan st domain name ipStr hl, hscan])
    have hzero : countNamed st.records name = 0 := by
      unfold countNamed
      rw [List.filter_eq_nil_iff.mpr (fun a ha => by simp [hnone a ha])]
      rfl
    rw [SetIP_of_noRecordsFound st freshId domain name ipStr recordTTL (by rw [hscan])] at hok ⊢
    by_cases hc : st.createFails = true
    · rw [if_pos hc] at hok
      simp at hok
    · rw [if_neg hc] at hok ⊢
      have hd0 : countDesired st.records name ipStr = 0 :=
        Nat.le_zero.mp (hzero ▸ countDesired_le_countNamed st.records name ipStr)
      refine ⟨?_, ?_⟩
      · show countDesired
          (applyCreate freshId (makeARecordEditRequest name ipStr recordTTL) st.records)
          name ipStr ≤ 1
        unfold countDesired applyCreate
        rw [List.filter_append, List.length_append]
        unfold countDesired at hd0
        rw [hd0]
        simp [matchesTarget, makeARecordEditRequest, ARecordType]
      · intro hpos
        rw [hzero] at hpos
        exact absurd hpos (by simp)

theorem setIP_unique_named_record_invariant_witness :
    countDesired
        (SetIP
          { records := [{ id := 1, type := "A", name := "home", data := "198.51.100.1", ttl := 100 }],
            listFails := false, createFails := false, updateFails := false }
          9 "example.com" "home" "203.0.113.5" 300).finalRecords "home" "203.0.113.5" ≤ 1
      ∧ (0 < countNamed
            [{ id := 1, type := "A", name := "home", data := "198.51.100.1", ttl := 100 }] "home" →
          ∀ d req, WriteCall.create d req ∉
            (SetIP
              { records := [{ id := 1, type := "A", name := "home", data := "198.51.100.1", ttl := 100 }],
                listFails := false, createFails := false, updateFails := false }
              9 "example.com" "home" "203.0.113.5" 300).writes) :=
  setIP_unique_named_record_invariant
    { records := [{ id := 1, type := "A", name := "home", data := "198.51.100.1", ttl := 100 }],
      listFails := false, createFails := false, updateFails := false }
    9 "example.com" "home" "203.0.113.5" 300 rfl (by decide) (by decide) (by rfl)

/-- C10: the reconciliation decision never reads a record TTL: rewriting every
listed TTL leaves the scan outcome and the identity of any targeted record
unchanged; and when every A record with the configured name already carries
the proposed value (whatever the TTLs), SetIP performs no write and leaves the
remote records, stale TTLs included, untouched. -/
theorem decision_independent_of_ttl :
    (∀ (name pv : String) (l : List DomainRecord) (g : DomainRecord → Int) (b : Bool),
        ((scanRecords name pv (l.map fun r => { r with ttl := g r }) b).2
            = (scanRecords name pv l b).2)
          ∧ ((scanRecords name pv (l.map fun r => { r with ttl := g r }) b).1.id
              = (scanRecords name pv l b).1.id)
          ∧ ((scanRecords name pv (l.map fun r => { r with ttl := g r }) b).1.data
              = (scanRecords name pv l b).1.data))
    ∧ (∀ (st : ProviderState) (freshId : Int) (domain name ipStr : String) (recordTTL : Int),
        st.listFails = false →
        (∃ r ∈ st.records, matchesTarget name r = true) →
        (∀ r ∈ st.records, matchesTarget name r = true → r.data = ipStr) →
        (SetIP st freshId domain name ipStr recordTTL).writes = []
          ∧ (SetIP st freshId domain name ipStr recordTTL).finalRecords = st.records) := by
  constructor
  · intro name pv l g b
    induction l generalizing b with
    | nil => exact ⟨rfl, rfl, rfl⟩
    | cons r rest ih =>
      have hfields : matchesTarget name { r with ttl := g r } = matchesTarget name r := rfl
      by_cases hm : matchesTarget name r = true
      · by_cases hd : r.data = pv
        · rw [List.map_cons,
            scanRecords_cons_current name pv { r with ttl := g r }
              (rest.map fun x => { x with ttl := g x }) b (hfields ▸ hm) hd,
            scanRecords_cons_current name pv r rest b hm hd]
          exact ih true
        · rw [List.map_cons,
            scanRecords_cons_found name pv { r with ttl := g r }
              (rest.map fun x => { x with ttl := g x }) b (hfields ▸ hm) hd,
            scanRecords_cons_found name pv r rest b hm hd]
          exact ⟨rfl, rfl, rfl⟩
      · rw [Bool.not_eq_true] at hm
        rw [List.map_cons,
          scanRecords_cons_skip name pv { r with ttl := g r }
            (rest.map fun x => { x with ttl := g x }) b (hfields ▸ hm),
          scanRecords_cons_skip name pv r rest b hm]
        exact ih b
  · intro st freshId domain name ipStr recordTTL hl hex hall
    have h2 : (getUpdatableARecord st domain name ipStr).2 = some DoError.noUpdateNeeded := by
      rw [getUpdatableARecord_eq_scan st domain name ipStr hl,
        scanRecords_false_all_current name ipStr st.records hex hall]
    rw [SetIP_of_noUpdateNeeded st freshId domain name ipStr recordTTL h2]
    exact ⟨rfl, rfl⟩

theorem decision_independent_of_ttl_witness :
    (SetIP
        { records := [{ id := 1, type := "A", name := "home", data := "203.0.113.5", ttl := 100 },
                      { id := 2, type := "A", name := "home", data := "203.0.113.5", ttl := 7200 }],
          listFails := false, createFails := false, updateFails := false }
        9 "example.com" "home" "203.0.113.5" 300).writes = []
      ∧ (SetIP
          { records := [{ id := 1, type := "A", name := "home", data := "203.0.113.5", ttl := 100 },
                        { id := 2, type := "A", name := "home", data := "203.0.113.5", ttl := 7200 }],
            listFails := false, createFails := false, updateFails := false }
          9 "example.com" "home" "203.0.113.5" 300).finalRecords
        = [{ id := 1, type := "A", name := "home", data := "203.0.113.5", ttl := 100 },
           { id := 2, type := "A", name := "home", data := "203.0.113.5", ttl := 7200 }] :=
  decision_independent_of_ttl.2
    { records := [{ id := 1, type := "A", name := "home", data := "203.0.113.5", ttl := 100 },
                  { id := 2, type := "A", name := "home", data := "203.0.113.5", ttl := 7200 }],
      listFails := false, createFails := false, updateFails := false }
    9 "example.com" "home" "203.0.113.5" 300 rfl (by decide) (by decide)

/-- C8: when the pass fetches the single record named by a remembered
identifier and the response is a 404, the pass is not a failure: it falls
through to the creation call and, when that call succeeds, reports the
record-set success message. -/
theorem notFound_fetch_falls_through_to_create (cfg : PrototypeDNSConfig)
    (p : PrototypeProvider) (ip : String) (i : Int)
    (hid : cfg.recordId = some i) (h404 : p.fetchStatus = 404)
    (hc : p.createFails = false) (hw : p.configWriteFails = false) :
    CreateOrUpdateRecord cfg p ip
      = (Except.ok PassMessage.setRecord, [MainAction.fetchCall, MainAction.createCall]) := by
  unfold CreateOrUpdateRecord
  rw [hid]
  simp [h404, CreateRecordCall, hc, hw]

theorem notFound_fetch_falls_through_to_create_witness :
    CreateOrUpdateRecord
        { domain := "example.com", recordId := some 99, name := "home", ttl := 300 }
        { fetchedRecord := { id := 0, type := "", name := "", data := "", ttl := 0 },
          fetchStatus := 404, fetchErrored := true,
          createFails := false, configWriteFails := false, updateFails := false }
        "203.0.113.5"
      = (Except.ok PassMessage.setRecord, [MainAction.fetchCall, MainAction.createCall]) :=
  notFound_fetch_falls_through_to_create
    { domain := "example.com", recordId := some 99, name := "home", ttl := 300 }
    { fetchedRecord := { id := 0, type := "", name := "", data := "", ttl := 0 },
      fetchStatus := 404, fetchErrored := true,
      createFails := false, configWriteFails := false, updateFails := false }
    "203.0.113.5" 99 rfl rfl rfl rfl

/-- C9: for every decoded configuration, NewConfig reports an error exactly
when the access token, domain, or name is empty or the ttl is zero, and the
decoded configuration itself is what is returned. -/
theorem newConfig_validates_all_fields (c : CmdConfig) :
    ((NewConfigDecoded c).2 ≠ none ↔
        (c.accessToken = "" ∨ c.dnsConfig.domain = "" ∨ c.dnsConfig.name = ""
          ∨ c.dnsConfig.ttl = 0))
      ∧ (NewConfigDecoded c).1 = c := by
  refine ⟨?_, rfl⟩
  unfold NewConfigDecoded CmdConfig.validate
  split_ifs with h1 h2 h3 h4 <;> simp_all

end PinamicDNS
